import Mathlib

/-!
Shallow embedding of the scraper sources of this repository
(`src/scrapers/codeforces.py` and `src/scrapers/codechef.py`).

Conventions used throughout:

* Python strings are Lean `String`s.  Helper functions (`pyStrip`, `pyLower`,
  `pyUpper`, ...) embed the corresponding `str` methods on the ASCII texts
  the scrapers handle.
* Python floats are embedded as `Rat`; every numeric value the development
  touches (`1.5 * 1024`, `256.0`, integer second counts, ...) is exactly
  representable, so no rounding is modelled.
* Network effects are passed in explicitly: each adapter operation takes the
  outcome of its HTTP fetches as `Except PyExn _` arguments.  An operation
  returning `Except.error` models a Python exception escaping that
  operation's public boundary; `Except.ok` models a normal return.
* DOM access (BeautifulSoup) is the collaborator boundary: an HTML document
  is embedded as the tree of texts and attributes the scraper actually reads
  (per-problem blocks, `pre` texts, line-marker divs, attribute strings).
-/

deriving instance DecidableEq for Except

namespace CpNvim

/-- Python whitespace (`str.strip`, regex `\s`), restricted to ASCII. -/
def isPyWS (c : Char) : Bool :=
  c = ' ' || c = '\t' || c = '\n' || c = '\r' || c = '\x0b' || c = '\x0c'

/-- ASCII lower-casing of one character (embeds `str.lower` on ASCII text). -/
def lowerA (c : Char) : Char :=
  if 'A' ≤ c && c ≤ 'Z' then Char.ofNat (c.toNat + 32) else c

/-- ASCII upper-casing of one character (embeds `str.upper` on ASCII text). -/
def upperA (c : Char) : Char :=
  if 'a' ≤ c && c ≤ 'z' then Char.ofNat (c.toNat - 32) else c

/-- Embeds `str.lower()` on ASCII text. -/
def pyLower (s : String) : String := String.mk (s.data.map lowerA)

/-- Embeds `str.upper()` on ASCII text. -/
def pyUpper (s : String) : String := String.mk (s.data.map upperA)

/-- Embeds `str.strip()`: drop leading and trailing whitespace. -/
def pyStrip (s : String) : String :=
  String.mk (((s.data.dropWhile isPyWS).reverse.dropWhile isPyWS).reverse)

/-- Embeds `"\n".join(xs)`. -/
def joinNL (xs : List String) : String := String.intercalate "\n" xs

/-- Numeric value of a digit run (`int` applied to a `\d+` match). -/
def digitsVal (ds : List Char) : Nat :=
  ds.foldl (fun n c => 10 * n + (c.toNat - 48)) 0

/-- Holds when the first list is a literal prefix of the second (exact characters). -/
def isPref : List Char → List Char → Bool
  | [], _ => true
  | _ :: _, [] => false
  | a :: as, b :: bs => a = b && isPref as bs

/-- Embeds `str.startswith`. -/
def strStarts (s t : String) : Bool := isPref t.data s.data

/-- Python substring test `needle in haystack`. -/
def hasSub (needle : List Char) : List Char → Bool
  | [] => needle.isEmpty
  | c :: t => isPref needle (c :: t) || hasSub needle t

/-- Case-insensitive character comparison (`re.IGNORECASE` on ASCII). -/
def ciEq (a b : Char) : Bool := lowerA a = lowerA b

/-- Consume a literal, case-insensitively; return the rest on success. -/
def ciConsume : List Char → List Char → Option (List Char)
  | [], s => some s
  | _ :: _, [] => none
  | p :: ps, c :: cs => if ciEq p c then ciConsume ps cs else none

/-- Greedily consume `\s*`. -/
def wsMany (s : List Char) : List Char := s.dropWhile isPyWS

/-- Consume `\s+` (at least one whitespace character, then greedily). -/
def ws1 : List Char → Option (List Char)
  | [] => none
  | c :: t => if isPyWS c then some (wsMany t) else none

/-- The character class `[0-9.]`. -/
def isDigitDot (c : Char) : Bool := c.isDigit || c = '.'

/-- The alternation `(MB|GB)`, case-insensitively; the scraper immediately
applies `.upper()` to the matched text, so the canonical unit is returned. -/
def matchUnit : List Char → Option String
  | c1 :: c2 :: _ =>
    if ciEq c1 'M' && ciEq c2 'B' then some "MB"
    else if ciEq c1 'G' && ciEq c2 'B' then some "GB"
    else none
  | _ => none

/-- The tail `.*?([0-9.]+)\s*(MB|GB)` of `MEMORY_LIMIT_RE` under `re.DOTALL`:
scan forward (lazy `.*?`) for the first position where a (greedy, maximal)
`[0-9.]+` run is followed by `\s*` and a unit.  The character classes
`[0-9.]`, `\s` and `[MmGg]` are pairwise disjoint, so the greedy runs need no
backtracking. -/
def findNumUnit : List Char → Option (String × String)
  | [] => none
  | c :: t =>
    let run := (c :: t).takeWhile isDigitDot
    if run.isEmpty then findNumUnit t
    else
      match matchUnit (wsMany ((c :: t).dropWhile isDigitDot)) with
      | some u => some (String.mk run, u)
      | none => findNumUnit t

/-- Try `MEMORY_LIMIT_RE` anchored at the current position:
`Memory\s+[Ll]imit.*?([0-9.]+)\s*(MB|GB)` with `re.IGNORECASE`
(the `[Ll]` is subsumed by `IGNORECASE`). -/
def matchMemAt (s : List Char) : Option (String × String) :=
  match ciConsume ['m', 'e', 'm', 'o', 'r', 'y'] s with
  | none => none
  | some r1 =>
    match ws1 r1 with
    | none => none
    | some r2 =>
      match ciConsume ['l', 'i', 'm', 'i', 't'] r2 with
      | none => none
      | some r3 => findNumUnit r3

/-- Embeds `MEMORY_LIMIT_RE.search`: leftmost start position wins. -/
def reSearchMem : List Char → Option (String × String)
  | [] => none
  | c :: t =>
    match matchMemAt (c :: t) with
    | some g => some g
    | none => reSearchMem t

/-- Python `float()` on the decimal literals produced by a `[0-9.]+` match:
digits with at most one dot and at least one digit parse to their exact
rational value; anything else (`"."`, `"1.2.3"`) raises `ValueError`,
modelled as `none`.  (Exponent and sign forms never arise from this
character class.) -/
def parseDec (s : List Char) : Option Rat :=
  if s.all isDigitDot then
    match (s.filter (· = '.')).length with
    | 0 => if s.isEmpty then none else some (digitsVal s)
    | 1 =>
      let ip := s.takeWhile (· ≠ '.')
      let fp := (s.dropWhile (· ≠ '.')).tail
      if ip.isEmpty && fp.isEmpty then none
      else some ((digitsVal ip : Rat) + (digitsVal fp : Rat) / ((10 : Rat) ^ fp.length))
    | _ => none
  else none

/-- Embeds `codechef._extract_memory_limit`: regex-search the page, default `256.0`
when absent, `× 1024.0` for GB.  `Except.error` models the `ValueError`
raised by `float()` on a malformed number such as `1.2.3`. -/
def _extract_memory_limit (html : String) : Except Unit Rat :=
  match reSearchMem html.data with
  | none => .ok 256
  | some (num, u) =>
    match parseDec num.data with
    | none => .error ()
    | some v => .ok (if u = "GB" then v * 1024 else v)

/-! ## Canonical data model (`src/scrapers/models.py` is read through its uses) -/

/-- A sample test pair, `models.TestCase`. -/
structure TestCase where
  input : String
  expected : String
deriving DecidableEq

/-- Embeds `models.ProblemSummary`. -/
structure ProblemSummary where
  id : String
  name : String
deriving DecidableEq

/-- Embeds `models.ContestSummary`. -/
structure ContestSummary where
  id : String
  name : String
  display_name : String
deriving DecidableEq

/-- Embeds `models.MetadataResult` (the fields the scrapers construct). -/
structure MetadataResult where
  success : Bool
  error : String
  contest_id : String
  problems : List ProblemSummary
  url : String
deriving DecidableEq

/-- Embeds `models.ContestListResult`. -/
structure ContestListResult where
  success : Bool
  error : String
  contests : List ContestSummary
deriving DecidableEq

/-- One streamed per-problem JSON record (the dictionary printed by
`stream_tests_for_category_async` in both scrapers; every key is always
present in the source dictionaries, so all fields are total). -/
structure StreamRecord where
  problem_id : String
  combined_input : String
  combined_expected : String
  tests : List TestCase
  timeout_ms : Int
  memory_mb : Rat
  interactive : Bool
  multi_test : Bool
deriving DecidableEq

/-- A Python exception crossing a fetch boundary.  `httpStatus` is
`httpx.HTTPStatusError` / `raise_for_status` failures; `timeout` is a
timeout exception (e.g. `httpx.TimeoutException`), which is *not* a
subclass of `HTTPStatusError`; `other` covers everything else
(JSON decode errors, transport errors, ...).  The payload is `str(e)`. -/
inductive PyExn where
  | httpStatus (msg : String)
  | timeout (msg : String)
  | other (msg : String)
deriving DecidableEq

/-- Embeds `str(e)` of an exception. -/
def exnStr : PyExn → String
  | .httpStatus m => m
  | .timeout m => m
  | .other m => m

/-- Modelled from the spec: `BaseScraper._metadata_error` (the file
`src/scrapers/base.py` is not present); the spec's invariant
"`success=false` ⇒ non-empty `error` and empty collections" fixes the
failure envelope's shape.  Nothing below depends on the `contest_id` or
`url` of a failure envelope. -/
def metadata_error (msg : String) : MetadataResult :=
  { success := false, error := msg, contest_id := "", problems := [], url := "" }

/-- Modelled from the spec: `BaseScraper._contests_error`
(`src/scrapers/base.py` is not present); same shape rationale as
`metadata_error`. -/
def contests_error (msg : String) : ContestListResult :=
  { success := false, error := msg, contests := [] }

/-! ## CodeChef adapter (`src/scrapers/codechef.py`)

The contest-detail endpoint's JSON is read through `data["problems"]` /
`data.get("problems", {})`: a map from problem code to a per-problem object
carrying `category_name` and `name`.  `json.loads` yields a dict, so the
key list of the embedded map is duplicate-free exactly when the modelled
response is; dict iteration order (insertion order) is the list order. -/

/-- One value of the CodeChef `problems` map (fields read with `.get`). -/
structure CCProblemInfo where
  category_name : Option String
  name : Option String
deriving DecidableEq

/-- The contest-detail JSON, as read by `scrape_contest_metadata` and
`stream_tests_for_category_async`.  An absent `problems` key and an empty
map are both falsy in Python and both embedded as `[]`. -/
structure CCContestData where
  problems : List (String × CCProblemInfo)
deriving DecidableEq

/-- One declared sample case of the problem-detail endpoint
(`t.get("input", "")`, `t.get("output", "")`, `t.get("isDeleted", False)`). -/
structure CCSample where
  input : String
  output : String
  isDeleted : Bool
deriving DecidableEq

/-- The problem-detail JSON, as read by `run_one`:
`problemComponents.sampleTestCases` (absent/null collapses to `[]`, as in
the source's `.get(...) or []`) and `max_timelimit` (read with default
`"1"`). -/
structure CCProblemDetail where
  sampleTestCases : List CCSample
  max_timelimit : Option String
deriving DecidableEq

/-- The `main`-category filter used by both CodeChef operations
(`category_name == "main"`). -/
def mainFilter (problems : List (String × CCProblemInfo)) : List (String × CCProblemInfo) :=
  problems.filter (fun p => p.2.category_name = some "main")

/-- Embeds `CodeChefScraper.scrape_contest_metadata`.  The whole body sits in
`try: ... except Exception`, so the operation always returns an envelope
(`Except.ok`), whatever the fetch outcome. -/
def cc_scrape_contest_metadata (contest_id : String)
    (fetch : Except PyExn CCContestData) : Except PyExn MetadataResult :=
  .ok <|
    match fetch with
    | .error e =>
      metadata_error ("Failed to fetch contest " ++ contest_id ++ ": " ++ exnStr e)
    | .ok data =>
      if data.problems.isEmpty then
        metadata_error ("No problems found for contest " ++ contest_id)
      else
        { success := true
          error := ""
          contest_id := contest_id
          problems := (mainFilter data.problems).map
            (fun p => { id := p.1, name := p.2.name.getD p.1 })
          url := "https://www.codechef.com/" ++ contest_id }

/-- Python `int()` truncation (toward zero) of a rational (`Int.tdiv` truncates toward zero). -/
def pyTrunc (q : Rat) : Int := Int.tdiv q.num (q.den : Int)

/-- The per-problem fallback record of `run_one`'s `except` branch
(`tests=[]`, `timeout_ms=1000`, `memory_mb=256.0`, `interactive=False`,
`multi_test=False`; the combined strings are computed after the handler
from the empty `tests`, hence `""`). -/
def ccFallbackRecord (problem_code : String) : StreamRecord :=
  { problem_id := problem_code
    combined_input := ""
    combined_expected := ""
    tests := []
    timeout_ms := 1000
    memory_mb := 256
    interactive := false
    multi_test := false }

/-- The `try` body of `run_one`: `none` models any exception reaching the
`except` handler — a failed problem-detail fetch, a `ValueError` from
`float(max_timelimit)`, a failed page fetch, or a `ValueError` inside
`_extract_memory_limit`. -/
def ccAttempt (probFetch : Except PyExn CCProblemDetail)
    (htmlFetch : Except PyExn String) : Option (List TestCase × Int × Rat) :=
  match probFetch with
  | .error _ => none
  | .ok pd =>
    let tests := (pd.sampleTestCases.filter (fun t => !t.isDeleted)).map
      (fun t => TestCase.mk (pyStrip t.input) (pyStrip t.output))
    match parseDec (pd.max_timelimit.getD "1").data with
    | none => none
    | some tl =>
      match htmlFetch with
      | .error _ => none
      | .ok html =>
        match _extract_memory_limit html with
        | .error _ => none
        | .ok mem => some (tests, pyTrunc (tl * 1000), mem)

/-- Embeds `run_one` inside `CodeChefScraper.stream_tests_for_category_async`,
as a function of the outcomes of its two fetches.  The combined strings
are computed after the `try`/`except`, uniformly from the (possibly
reset) `tests`. -/
def run_one (problem_code : String) (probFetch : Except PyExn CCProblemDetail)
    (htmlFetch : Except PyExn String) : StreamRecord :=
  match ccAttempt probFetch htmlFetch with
  | none => ccFallbackRecord problem_code
  | some (tests, tms, mem) =>
    { problem_id := problem_code
      combined_input := if tests.isEmpty then "" else joinNL (tests.map (·.input))
      combined_expected := if tests.isEmpty then "" else joinNL (tests.map (·.expected))
      tests := tests
      timeout_ms := tms
      memory_mb := mem
      interactive := false
      multi_test := false }

/-- One output line of a streaming operation: either the terminal error
JSON (`{"error": ...}`) or a per-problem record. -/
inductive CCOut where
  | err (msg : String)
  | record (r : StreamRecord)
deriving DecidableEq

/-- Embeds `CodeChefScraper.stream_tests_for_category_async`.  The source gathers
`run_one` tasks with `asyncio.as_completed` and prints each record as it
completes; the emission *order* is completion order and is abstracted here
as submission order (the claims below never depend on it).  Every task's
record is awaited and printed; nothing is dropped. -/
def cc_stream_tests (category_id : String) (contestFetch : Except PyExn CCContestData)
    (probFetch : String → Except PyExn CCProblemDetail)
    (htmlFetch : String → Except PyExn String) : List CCOut :=
  match contestFetch with
  | .error e =>
    [CCOut.err ("Failed to fetch contest " ++ category_id ++ ": " ++ exnStr e)]
  | .ok data =>
    if data.problems.isEmpty then
      [CCOut.err ("No problems found for contest " ++ category_id)]
    else
      let problems := mainFilter data.problems
      if problems.isEmpty then
        [CCOut.err ("No main problems found for contest " ++ category_id)]
      else
        problems.map (fun p => CCOut.record (run_one p.1 (probFetch p.1) (htmlFetch p.1)))

/-- The ids carried by the per-problem records of a stream. -/
def ccStreamIds (outs : List CCOut) : List String :=
  outs.filterMap (fun o => match o with | .err _ => none | .record r => some r.problem_id)

/-! ### CodeChef contest listing -/

/-- One entry of the `future_contests` / `past_contests` catalog arrays
(`contest.get("contest_code", "")`; the default is folded into the field). -/
structure CCCatalogEntry where
  contest_code : String
deriving DecidableEq

/-- The `/api/list/contests/all` response, as read by
`scrape_contest_list` (`data.get("future_contests", [])`,
`data.get("past_contests", [])`). -/
structure CCCatalog where
  future_contests : List CCCatalogEntry
  past_contests : List CCCatalogEntry
deriving DecidableEq

/-- The per-code step of generation discovery:
`contest_code.startswith("START")` followed by
`re.match(r"START(\d+)", contest_code)`.  `re.match` anchors at the start
but does not require the match to span the whole string, so the numeric
value is the *maximal leading digit run* after `START`; a code with no
digit directly after `START` yields no match. -/
def startNum (code : String) : Option Nat :=
  if isPref ['S', 'T', 'A', 'R', 'T'] code.data then
    let ds := (code.data.drop 5).takeWhile Char.isDigit
    if ds.isEmpty then none else some (digitsVal ds)
  else none

/-- The `max_num` accumulation loop of `scrape_contest_list`. -/
def maxStartNum (entries : List CCCatalogEntry) : Nat :=
  entries.foldl
    (fun m e => match startNum e.contest_code with
      | some n => max m n
      | none => m)
    0

/-- One value of the `child_contests` map
(`div_data.get("contest_code", "")`,
`div_data.get("div", {}).get("div_number", "")`; the defaults are folded
into `Option.getD ""` below, and Python truthiness of the resulting string
is `≠ ""`). -/
structure CCDivData where
  contest_code : Option String
  div_number : Option String
deriving DecidableEq

/-- The parent-contest detail JSON as read by `fetch_divisions`
(`parent_data.get("child_contests", {})`). -/
structure CCParentData where
  child_contests : List (String × CCDivData)
deriving DecidableEq

/-- Embeds `fetch_divisions(i)`: its fetch sits in `try: ... except Exception`,
which logs to stderr and returns `[]`, so a division fetch failure never
escapes and never contributes contests. -/
def fetch_divisions (i : Nat) (fetch : Except PyExn CCParentData) : List ContestSummary :=
  match fetch with
  | .error _ => []
  | .ok parent =>
    if parent.child_contests.isEmpty then []
    else
      let base_name := "Starters " ++ toString i
      parent.child_contests.filterMap (fun kv =>
        let div_code := kv.2.contest_code.getD ""
        let div_num := kv.2.div_number.getD ""
        if div_code ≠ "" && div_num ≠ "" then
          some { id := div_code, name := base_name
                 display_name := base_name ++ " (Div. " ++ div_num ++ ")" }
        else none)

/-- The parent-contest ids of the tasks created by
`tasks = [fetch_divisions(i) for i in range(1, max_num + 1)]`: the
generations whose division fetch is attempted. -/
def attemptedGens (catalog : CCCatalog) : List Nat :=
  let m := maxStartNum (catalog.future_contests ++ catalog.past_contests)
  if m = 0 then [] else List.range' 1 m

/-- Embeds `CodeChefScraper.scrape_contest_list`.  Only the catalog fetch is
guarded, and only by `except httpx.HTTPStatusError`: any other exception
raised there (timeout, JSON decode error, transport error) propagates out
of the operation, modelled by returning `Except.error`.  Division fetch
results are gathered with `asyncio.as_completed` (completion order,
abstracted as submission order; the final envelope's contest list keeps
one flattened group per generation). -/
def cc_scrape_contest_list (catalogFetch : Except PyExn CCCatalog)
    (divFetch : Nat → Except PyExn CCParentData) : Except PyExn ContestListResult :=
  match catalogFetch with
  | .error (.httpStatus m) =>
    .ok (contests_error ("Failed to fetch contests: " ++ m))
  | .error e => .error e
  | .ok data =>
    let all_contests := data.future_contests ++ data.past_contests
    let max_num := maxStartNum all_contests
    if max_num = 0 then .ok (contests_error "No Starters contests found")
    else
      .ok { success := true
            error := ""
            contests := (List.range' 1 max_num).flatMap
              (fun i => fetch_divisions i (divFetch i)) }

/-! ## Codeforces extraction engine (`src/scrapers/codeforces.py`)

A contest page is embedded as the list of its `div.problem-statement`
blocks; each block carries exactly the texts and attributes the extraction
functions read.  `get_text` flattening of a DOM node to a string is the
collaborator boundary: the embedded fields *are* those flattened texts. -/

/-- A `div.test-example-line` element inside a `pre`.  `gid` is the numeric
suffix extracted by `re.search(r"\btest-example-line-(\d+)\b", classes)`:
`none` when the class list carries no numbered marker (the div still counts
for grouped-layout detection, which only looks for the base class). -/
structure LineDiv where
  gid : Option Nat
  text : String
deriving DecidableEq

/-- A `pre` inside a sample `div.input` / `div.output`.  `raw` is
`pre.get_text(separator="\n", strip=False)` before the cleanup performed by
`_text_from_pre`; `lineDivs` are its `div.test-example-line` children in
document order. -/
structure Pre where
  raw : String
  lineDivs : List LineDiv
deriving DecidableEq

/-- The `div.sample-test` of a block: the `pre`s of its `div.input` /
`div.output` children, in document order (input/output divs without a
`pre` are already dropped, as in the source's list comprehensions). -/
structure SampleTest where
  inputs : List Pre
  outputs : List Pre
deriving DecidableEq

/-- One `div.problem-statement` block.  `problemIndex` is the
`problemindex` attribute of the `div.problemindexholder` ancestor (`none`
when there is no such ancestor, which the source folds to `""`);
`titleText`, `timeLimitText`, `memLimitText` are the flattened texts of the
corresponding sub-elements (`none` when the element is absent);
`statementText` is the flattened block text used by `_is_interactive`. -/
structure Block where
  problemIndex : Option String
  titleText : Option String
  sampleTest : Option SampleTest
  timeLimitText : Option String
  memLimitText : Option String
  statementText : String
deriving DecidableEq

/-- Embeds `_text_from_pre`: `.replace("\r", "").replace("\xa0", " ").strip()`
applied to the flattened `pre` text (both replaces are single-character,
hence the filter/map form). -/
def _text_from_pre (raw : String) : String :=
  pyStrip (String.mk ((raw.data.filter (fun c => c ≠ '\r')).map
    (fun c => if c = '\xa0' then ' ' else c)))

/-- Embeds `s.split(sep, 1)`: exactly two parts are produced iff `sep` occurs;
returns those two parts. -/
def splitOnce (s : String) (c : Char) : Option (String × String) :=
  if s.data.any (fun x => x = c) then
    some (String.mk (s.data.takeWhile (fun x => x ≠ c)),
          String.mk ((s.data.dropWhile (fun x => x ≠ c)).tail))
  else none

/-- Embeds `_extract_title` on the title div's flattened text. -/
def _extract_title (t : Option String) : String × String :=
  match t with
  | none => ("", "")
  | some s =>
    match splitOnce s '.' with
    | none => ("", pyStrip s)
    | some (a, b) => (pyUpper (pyStrip a), pyStrip b)

/-- The searches `re.search(r"(\d+)\s*seconds?", txt)` and
`re.search(r"(\d+)\s*megabytes?", txt)` (case-sensitive): leftmost position
where a maximal digit run is followed by `\s*` and the literal unit stem
(the trailing `s?` never affects the captured number).  `\d`, `\s` and the
unit's first letter are pairwise disjoint, so maximal munch is exact. -/
def numThenLit (lit : List Char) : List Char → Option Nat
  | [] => none
  | c :: t =>
    let run := (c :: t).takeWhile Char.isDigit
    if run.isEmpty then numThenLit lit t
    else if isPref lit (wsMany ((c :: t).dropWhile Char.isDigit)) then
      some (digitsVal run)
    else numThenLit lit t

/-- Embeds `_extract_limits`: `(timeout_ms, memory_mb)` from the time-limit and
memory-limit div texts, defaulting to `0` / `0.0`. -/
def _extract_limits (tdiv mdiv : Option String) : Int × Rat :=
  let timeout_ms : Int :=
    match tdiv with
    | none => 0
    | some ttxt =>
      match numThenLit ['s', 'e', 'c', 'o', 'n', 'd'] ttxt.data with
      | some n => (n : Int) * 1000
      | none => 0
  let memory_mb : Rat :=
    match mdiv with
    | none => 0
    | some mtxt =>
      match numThenLit ['m', 'e', 'g', 'a', 'b', 'y', 't', 'e'] mtxt.data with
      | some n => (n : Nat)
      | none => 0
  (timeout_ms, memory_mb)

/-- Embeds `_is_interactive`: fixed-phrase containment in the block text. -/
def _is_interactive (b : Block) : Bool :=
  hasSub "This is an interactive problem".data b.statementText.data

/-- Embeds `target.setdefault(k, []).extend(v)` on an insertion-ordered dict
(embedded as a key-duplicate-free association list): extend the value in
place if the key exists, otherwise insert the key at the end. -/
def extendGroup : List (Nat × List String) → Nat → List String → List (Nat × List String)
  | [], k, v => [(k, v)]
  | p :: ps, k, v =>
    if p.1 = k then (p.1, p.2 ++ v) :: ps else p :: extendGroup ps k v

/-- Embeds `groups.setdefault(gid, []).append(text)`. -/
def addLine (groups : List (Nat × List String)) (gid : Nat) (t : String) :
    List (Nat × List String) :=
  extendGroup groups gid [t]

/-- Embeds `_group_lines_by_id`: the insertion-ordered dict of numbered line
texts of one `pre` (divs without a numbered marker are skipped). -/
def _group_lines_by_id (p : Pre) : List (Nat × List String) :=
  p.lineDivs.foldl
    (fun gs d => match d.gid with
      | none => gs
      | some g => addLine gs g d.text)
    []

/-- Merge one pre's groups into the accumulated per-side dict
(`for k, v in g.items(): target.setdefault(k, []).extend(v)`). -/
def mergeGroups (acc g : List (Nat × List String)) : List (Nat × List String) :=
  g.foldl (fun a kv => extendGroup a kv.1 kv.2) acc

/-- The accumulation loops `for p in input_pres: ...` (and the same for
outputs): all pres' groups merged into one dict. -/
def gatherGroups (pres : List Pre) : List (Nat × List String) :=
  pres.foldl (fun acc p => mergeGroups acc (_group_lines_by_id p)) []

/-- Keys of an insertion-ordered dict. -/
def keysOf (groups : List (Nat × List String)) : List Nat := groups.map Prod.fst

/-- Dict lookup with default `[]` (keys looked up below always exist). -/
def lookupG : List (Nat × List String) → Nat → List String
  | [], _ => []
  | p :: ps, k => if p.1 = k then p.2 else lookupG ps k

/-- Claim-side formulation of cross-fragment accumulation: the texts of
the group-`k` line divs of all pres of one side, in document order. -/
def accumLines (pres : List Pre) (k : Nat) : List String :=
  pres.flatMap (fun p =>
    (p.lineDivs.filter (fun d => d.gid = some k)).map (fun d => d.text))

/-- Embeds `dict.pop(0, None)`: discard group id `0`. -/
def remove0 (groups : List (Nat × List String)) : List (Nat × List String) :=
  groups.filter (fun p => p.1 ≠ 0)

/-- Ascending insertion. -/
def insertAsc (n : Nat) : List Nat → List Nat
  | [] => [n]
  | m :: ms => if n ≤ m then n :: m :: ms else m :: insertAsc n ms

/-- Embeds `sorted(...)` of a duplicate-free key list. -/
def sortAsc (l : List Nat) : List Nat := l.foldr insertAsc []

/-- Embeds `any(p.find("div", class_="test-example-line") for p in input_pres +
output_pres)`: grouped-layout detection. -/
def hasGroupedMarkers (st : SampleTest) : Bool :=
  (st.inputs ++ st.outputs).any (fun p => !p.lineDivs.isEmpty)

/-- The accumulated input-side dict, group id 0 dropped
(`inputs_by_gid.pop(0, None)`). -/
def inputsByGid (st : SampleTest) : List (Nat × List String) :=
  remove0 (gatherGroups st.inputs)

/-- The accumulated output-side dict, group id 0 dropped. -/
def outputsByGid (st : SampleTest) : List (Nat × List String) :=
  remove0 (gatherGroups st.outputs)

/-- Embeds `keys = sorted(set(inputs_by_gid.keys()) & set(outputs_by_gid.keys()))`
(both key lists are duplicate-free, so filtering one by membership in the
other and sorting equals Python's sorted set intersection). -/
def groupedKeys (st : SampleTest) : List Nat :=
  sortAsc ((keysOf (inputsByGid st)).filter
    (fun k => (keysOf (outputsByGid st)).any (fun j => j = k)))

/-- The ungrouped fallback of `_extract_samples`: pair the i-th input text
with the i-th output text, truncating to the shorter list. -/
def positionalSamples (st : SampleTest) : List TestCase :=
  ((st.inputs.map (fun p => _text_from_pre p.raw)).zip
    (st.outputs.map (fun p => _text_from_pre p.raw))).map
    (fun pr => { input := pr.1, expected := pr.2 })

/-- Embeds `_extract_samples`: grouped extraction when line markers exist and the
group-id intersection is non-empty (`if keys: return samples, True`),
positional pairing otherwise.  A missing `div.sample-test` yields
`([], False)`. -/
def _extract_samples (sampleTest : Option SampleTest) : List TestCase × Bool :=
  match sampleTest with
  | none => ([], false)
  | some st =>
    if hasGroupedMarkers st && !(groupedKeys st).isEmpty then
      ((groupedKeys st).map (fun k =>
        { input := pyStrip (joinNL (lookupG (inputsByGid st) k))
          expected := pyStrip (joinNL (lookupG (outputsByGid st) k)) }),
       true)
    else (positionalSamples st, false)

/-- One per-block dictionary of `_parse_all_blocks` (the record appended to
`out`; `letter` has already been checked non-empty by the caller). -/
structure CFRecord where
  letter : String
  name : String
  combined_input : String
  combined_expected : String
  tests : List TestCase
  timeout_ms : Int
  memory_mb : Rat
  interactive : Bool
  multi_test : Bool
deriving DecidableEq

/-- Embeds `(holder.get("problemindex") if holder else "").strip().upper()`. -/
def letterOf (b : Block) : String := pyUpper (pyStrip (b.problemIndex.getD ""))

/-- The loop body of `_parse_all_blocks` for one block (after the
`if not letter: continue` guard): sample extraction, limit extraction,
interactivity, and the grouped combined/individual framing
(`combined_input = f"{len(raw_samples)}\n" + "\n".join(...)`,
individual inputs re-framed as `"1\n" + tc.input`). -/
def blockRecord (b : Block) : CFRecord :=
  let es := _extract_samples b.sampleTest
  let raw_samples := es.1
  let is_grouped := es.2
  let lims := _extract_limits b.timeLimitText b.memLimitText
  if is_grouped && !raw_samples.isEmpty then
    { letter := letterOf b
      name := (_extract_title b.titleText).2
      combined_input := toString raw_samples.length ++ "\n" ++
        joinNL (raw_samples.map (fun tc => tc.input))
      combined_expected := joinNL (raw_samples.map (fun tc => tc.expected))
      tests := raw_samples.map (fun tc =>
        { input := "1\n" ++ tc.input, expected := tc.expected })
      timeout_ms := lims.1
      memory_mb := lims.2
      interactive := _is_interactive b
      multi_test := is_grouped }
  else
    { letter := letterOf b
      name := (_extract_title b.titleText).2
      combined_input := joinNL (raw_samples.map (fun tc => tc.input))
      combined_expected := joinNL (raw_samples.map (fun tc => tc.expected))
      tests := raw_samples
      timeout_ms := lims.1
      memory_mb := lims.2
      interactive := _is_interactive b
      multi_test := is_grouped }

/-- Embeds `_parse_all_blocks` on the page's block list: blocks whose holder
letter is empty are skipped (`if not letter: continue`), the rest yield one
record each, in document order. -/
def _parse_all_blocks (blocks : List Block) : List CFRecord :=
  blocks.filterMap (fun b => if letterOf b = "" then none else some (blockRecord b))

/-- Whether any block of the page contains a line-level group marker
(the claim's "a grouped sample existed anywhere on the page"). -/
def pageHasGrouped (blocks : List Block) : Bool :=
  blocks.any (fun b =>
    match b.sampleTest with
    | none => false
    | some st => hasGroupedMarkers st)

/-! ## Codeforces adapter operations -/

/-- Embeds `CodeforcesScraper.scrape_contest_metadata`: the whole body
(fetch + parse via `_scrape_contest_problems_sync`) sits in
`try: ... except Exception`, so the operation always returns an envelope.
`pid = b["letter"].upper()` then `id=pid.lower()`. -/
def cf_scrape_contest_metadata (contest_id : String)
    (fetch : Except PyExn (List Block)) : Except PyExn MetadataResult :=
  .ok <|
    match fetch with
    | .error e => metadata_error (exnStr e)
    | .ok page =>
      let problems := (_parse_all_blocks page).map
        (fun r => ProblemSummary.mk (pyLower (pyUpper r.letter)) r.name)
      if problems.isEmpty then
        metadata_error ("No problems found for contest " ++ contest_id)
      else
        { success := true
          error := ""
          contest_id := contest_id
          problems := problems
          url := "https://codeforces.com/contest/" ++ contest_id ++ "/problem/%s" }

/-- One entry of the `contest.list` API result, as read by
`scrape_contest_list` (`c.get("phase")` may be absent; `c["id"]` and
`c["name"]` are required fields of the API). -/
structure CFCatalogEntry where
  id : Int
  name : String
  phase : Option String
deriving DecidableEq

/-- The `contest.list` API response (`data.get("status")`,
`data["result"]`). -/
structure CFApiData where
  status : Option String
  result : List CFCatalogEntry
deriving DecidableEq

/-- Embeds `CodeforcesScraper.scrape_contest_list`: fully guarded by
`try: ... except Exception`; keeps entries with `phase == "FINISHED"` in
catalog order, stringifying `id` and using `name` for both `name` and
`display_name`; an empty filtered list yields the `"No contests found"`
failure envelope. -/
def cf_scrape_contest_list (fetch : Except PyExn CFApiData) :
    Except PyExn ContestListResult :=
  .ok <|
    match fetch with
    | .error e => contests_error (exnStr e)
    | .ok data =>
      if data.status ≠ some "OK" then contests_error "Invalid API response"
      else
        let contests := data.result.filterMap (fun c =>
          if c.phase = some "FINISHED" then
            some (ContestSummary.mk (toString c.id) c.name c.name)
          else none)
        if contests.isEmpty then contests_error "No contests found"
        else { success := true, error := "", contests := contests }

/-- Embeds `CodeforcesScraper.stream_tests_for_category_async`: *no* `try` guards
the fetch/parse (`await asyncio.to_thread(_fetch_problems_html, ...)`), so
a raising fetch or parse propagates out of the operation (`Except.error`).
On success one JSON record per parsed block is printed, with
`problem_id = b["letter"].lower()`. -/
def cf_stream_tests (fetch : Except PyExn (List Block)) :
    Except PyExn (List StreamRecord) :=
  match fetch with
  | .error e => .error e
  | .ok page =>
    .ok ((_parse_all_blocks page).map (fun r =>
      { problem_id := pyLower r.letter
        combined_input := r.combined_input
        combined_expected := r.combined_expected
        tests := r.tests
        timeout_ms := r.timeout_ms
        memory_mb := r.memory_mb
        interactive := r.interactive
        multi_test := r.multi_test }))

/-- The problem ids of a Codeforces stream (empty on a propagated
exception, where nothing was printed). -/
def cfStreamIds (res : Except PyExn (List StreamRecord)) : List String :=
  match res with
  | .error _ => []
  | .ok rs => rs.map (fun r => r.problem_id)

/-- The catalog entries with `phase == "FINISHED"`, in catalog order. -/
def cfFinished (data : CFApiData) : List CFCatalogEntry :=
  data.result.filter (fun c => c.phase = some "FINISHED")

/-! ## Concrete instances used by the individual verdicts below -/

/-- A problem block with one ungrouped sample pair `"1 2"` → `"3"`. -/
def c4UngroupedBlock : Block :=
  { problemIndex := some "A"
    titleText := some "A. Plus"
    sampleTest := some { inputs := [{ raw := "1 2", lineDivs := [] }]
                         outputs := [{ raw := "3", lineDivs := [] }] }
    timeLimitText := some "1 second"
    memLimitText := some "256 megabytes"
    statementText := "" }

/-- A problem block with one grouped sample whose input (resp. output)
spans two numbered line-marker elements, all carrying group id 1. -/
def c4GroupedBlock (u1 u2 v1 v2 : String) : Block :=
  { problemIndex := some "B"
    titleText := some "B. Sum"
    sampleTest := some
      { inputs := [{ raw := "", lineDivs := [{ gid := some 1, text := u1 },
                                             { gid := some 1, text := u2 }] }]
        outputs := [{ raw := "", lineDivs := [{ gid := some 1, text := v1 },
                                              { gid := some 1, text := v2 }] }] }
    timeLimitText := some "1 second"
    memLimitText := some "256 megabytes"
    statementText := "" }

/-- The two-block fixture page of the extraction round-trip claim. -/
def c4Page (u1 u2 v1 v2 : String) : List Block :=
  [c4UngroupedBlock, c4GroupedBlock u1 u2 v1 v2]

/-- A sample-test with grouped markers whose input/output group-id sets
have empty intersection (input side only group 1, output side only the
discarded group 0). -/
def c5CexSampleTest : SampleTest :=
  { inputs := [{ raw := "inraw", lineDivs := [{ gid := some 1, text := "x" }] }]
    outputs := [{ raw := "outraw", lineDivs := [{ gid := some 0, text := "y" }] }] }

/-- A grouped block used to instantiate the sample-combination theorem. -/
def c6Block : Block :=
  { problemIndex := some "C"
    titleText := some "C. Join"
    sampleTest := some
      { inputs := [{ raw := "", lineDivs := [{ gid := some 0, text := "2" },
                                             { gid := some 1, text := "a" },
                                             { gid := some 1, text := "b" },
                                             { gid := some 2, text := "c" }] }]
        outputs := [{ raw := "", lineDivs := [{ gid := some 1, text := "o1" },
                                              { gid := some 2, text := "o2" }] }] }
    timeLimitText := some "2 seconds"
    memLimitText := some "512 megabytes"
    statementText := "" }

/-- A contest whose declared problems are all non-`main`. -/
def c2Data : CCContestData :=
  { problems := [("SPEED1", { category_name := some "speedrun", name := some "Speedy" })] }

/-- A contest with two `main` problems, for the streaming theorems. -/
def c3Data : CCContestData :=
  { problems := [("A", { category_name := some "main", name := some "Alpha" }),
                 ("B", { category_name := some "main", name := some "Beta" })] }

/-- A problem-detail fetch oracle failing exactly on problem `"A"`. -/
def c3ProbFetch (code : String) : Except PyExn CCProblemDetail :=
  if code = "A" then .error (.timeout "timed out")
  else .ok { sampleTestCases := [{ input := " 1 ", output := " 2 ", isDeleted := false }]
             max_timelimit := some "1" }

/-- A page fetch oracle succeeding on every problem. -/
def c3HtmlFetch (_code : String) : Except PyExn String :=
  .ok "Memory Limit: 256 MB"

/-- The generation-discovery catalog of the claim (`PFX` = `START`). -/
def c7Catalog : CCCatalog :=
  { future_contests := [{ contest_code := "START5" }, { contest_code := "START12" },
                        { contest_code := "START12A" }]
    past_contests := [{ contest_code := "START7" }] }

/-- A catalog containing a code with a non-numeric suffix after the
digits (`START99X`). -/
def c7CexCatalog : CCCatalog :=
  { future_contests := [{ contest_code := "START5" }, { contest_code := "START99X" }]
    past_contests := [] }

/-- A page with two blocks carrying the same `problemindex` letter. -/
def c9Page : List Block :=
  [{ problemIndex := some "A", titleText := some "A. One", sampleTest := none
     timeLimitText := none, memLimitText := none, statementText := "" },
   { problemIndex := some "A", titleText := some "A. Two", sampleTest := none
     timeLimitText := none, memLimitText := none, statementText := "" }]

/-- A `contest.list` catalog with one finished and one running contest. -/
def c10Data : CFApiData :=
  { status := some "OK"
    result := [{ id := 1550, name := "Edu Round", phase := some "FINISHED" },
               { id := 2000, name := "Live Round", phase := some "CODING" }] }

/-- A sample-test with a discarded group-0 count line and two real groups,
one of them split across two line markers. -/
def c5WitnessSampleTest : SampleTest :=
  { inputs := [{ raw := "X", lineDivs := [{ gid := some 0, text := "2" },
                                          { gid := some 1, text := "a" },
                                          { gid := some 1, text := "b" },
                                          { gid := some 2, text := "c" }] }]
    outputs := [{ raw := "Y", lineDivs := [{ gid := some 0, text := "z" },
                                           { gid := some 1, text := "o1" },
                                           { gid := some 2, text := "o2" }] }] }

/-! ## Helper lemmas -/

theorem lookupG_extendGroup (gs : List (Nat × List String)) (k : Nat)
    (v : List String) (j : Nat) :
    lookupG (extendGroup gs k v) j =
      if j = k then lookupG gs k ++ v else lookupG gs j := by
  induction gs with
  | nil =>
    by_cases h : j = k
    · subst h; simp [extendGroup, lookupG]
    · have h2 : ¬ k = j := fun he => h he.symm
      simp [extendGroup, lookupG, h, h2]
  | cons p ps ih =>
    by_cases hpk : p.1 = k
    · by_cases hjk : j = k
      · subst hjk
        simp [extendGroup, lookupG, hpk]
      · have h2 : ¬ k = j := fun he => hjk he.symm
        have h3 : ¬ p.1 = j := fun he => hjk (he.symm.trans hpk)
        simp [extendGroup, lookupG, hpk, hjk, h2, h3]
    · by_cases hpj : p.1 = j
      · have hjk : ¬ j = k := fun he => hpk (hpj.trans he)
        simp [extendGroup, lookupG, hpk, hpj, hjk]
      · by_cases hjk : j = k
        · subst hjk
          simp [extendGroup, lookupG, hpk, hpj, ih]
        · simp [extendGroup, lookupG, hpk, hpj, hjk, ih]

theorem mem_keysOf_extendGroup (gs : List (Nat × List String)) (k : Nat)
    (v : List String) (j : Nat) :
    j ∈ keysOf (extendGroup gs k v) ↔ j ∈ keysOf gs ∨ j = k := by
  induction gs with
  | nil => simp [extendGroup, keysOf]
  | cons p ps ih =>
    by_cases hpk : p.1 = k
    · simp only [extendGroup, hpk, if_pos, keysOf, List.map_cons, List.mem_cons] at *
      tauto
    · simp only [extendGroup, hpk, if_neg, not_false_iff, keysOf, List.map_cons,
        List.mem_cons] at *
      tauto

theorem keysOf_extendGroup_nodup (gs : List (Nat × List String)) (k : Nat)
    (v : List String) (h : (keysOf gs).Nodup) :
    (keysOf (extendGroup gs k v)).Nodup := by
  induction gs with
  | nil => simp [extendGroup, keysOf]
  | cons p ps ih =>
    simp only [keysOf, List.map_cons, List.nodup_cons] at h
    by_cases hpk : p.1 = k
    · simp only [extendGroup, hpk, if_pos, keysOf, List.map_cons, List.nodup_cons]
      exact ⟨by simpa [keysOf, hpk] using h.1, by simpa [keysOf] using h.2⟩
    · simp only [extendGroup, hpk, if_neg, not_false_iff, keysOf, List.map_cons,
        List.nodup_cons]
      refine ⟨?_, ih (by simpa [keysOf] using h.2)⟩
      intro hmem
      rcases (mem_keysOf_extendGroup ps k v p.1).mp (by simpa [keysOf] using hmem) with h2 | h2
      · exact h.1 (by simpa [keysOf] using h2)
      · exact hpk h2

theorem lookupG_eq_nil_of_not_mem (gs : List (Nat × List String)) (j : Nat)
    (h : j ∉ keysOf gs) : lookupG gs j = [] := by
  induction gs with
  | nil => rfl
  | cons p ps ih =>
    simp only [keysOf, List.map_cons, List.mem_cons] at h
    push_neg at h
    have h1 : ¬ p.1 = j := fun he => h.1 he.symm
    simp only [lookupG, h1, if_neg, not_false_iff]
    exact ih (by simpa [keysOf] using h.2)

theorem lookupG_mergeGroups (acc g : List (Nat × List String)) (j : Nat)
    (hg : (keysOf g).Nodup) :
    lookupG (mergeGroups acc g) j = lookupG acc j ++ lookupG g j := by
  induction g generalizing acc with
  | nil => simp [mergeGroups, lookupG]
  | cons kv g2 ih =>
    simp only [keysOf, List.map_cons, List.nodup_cons] at hg
    show lookupG (mergeGroups (extendGroup acc kv.1 kv.2) g2) j = _
    rw [ih _ (by simpa [keysOf] using hg.2), lookupG_extendGroup]
    by_cases hj : j = kv.1
    · subst hj
      have hnil : lookupG g2 kv.1 = [] :=
        lookupG_eq_nil_of_not_mem _ _ (by simpa [keysOf] using hg.1)
      simp [lookupG, hnil]
    · have h2 : ¬ kv.1 = j := fun he => hj he.symm
      simp [lookupG, hj, h2]

theorem mem_keysOf_mergeGroups (acc g : List (Nat × List String)) (j : Nat) :
    j ∈ keysOf (mergeGroups acc g) ↔ j ∈ keysOf acc ∨ j ∈ keysOf g := by
  induction g generalizing acc with
  | nil => simp [mergeGroups, keysOf]
  | cons kv g2 ih =>
    show j ∈ keysOf (mergeGroups (extendGroup acc kv.1 kv.2) g2) ↔ _
    rw [ih, mem_keysOf_extendGroup]
    simp only [keysOf, List.map_cons, List.mem_cons]
    tauto

theorem keysOf_mergeGroups_nodup (acc g : List (Nat × List String))
    (h : (keysOf acc).Nodup) : (keysOf (mergeGroups acc g)).Nodup := by
  induction g generalizing acc with
  | nil => exact h
  | cons kv g2 ih =>
    exact ih _ (keysOf_extendGroup_nodup acc kv.1 kv.2 h)

theorem lookupG_group_lines (p : Pre) (k : Nat) :
    lookupG (_group_lines_by_id p) k =
      (p.lineDivs.filter (fun d => d.gid = some k)).map (fun d => d.text) := by
  suffices h : ∀ (divs : List LineDiv) (acc : List (Nat × List String)),
      lookupG (divs.foldl (fun gs d => match d.gid with
        | none => gs
        | some g => addLine gs g d.text) acc) k =
      lookupG acc k ++ (divs.filter (fun d => d.gid = some k)).map (fun d => d.text) by
    have h2 := h p.lineDivs []
    simpa [_group_lines_by_id, lookupG] using h2
  intro divs
  induction divs with
  | nil => simp [lookupG]
  | cons d ds ih =>
    intro acc
    rcases hgid : d.gid with _ | g
    · simp only [List.foldl_cons, hgid]
      rw [ih acc]
      congr 1
      simp [List.filter_cons, hgid]
    · by_cases hgk : g = k
      · subst hgk
        simp only [List.foldl_cons, hgid]
        rw [ih (addLine acc g d.text)]
        simp only [addLine, lookupG_extendGroup, if_pos]
        simp [List.filter_cons, hgid, List.append_assoc]
      · simp only [List.foldl_cons, hgid]
        rw [ih (addLine acc g d.text)]
        simp only [addLine, lookupG_extendGroup]
        have h3 : ¬ k = g := fun he => hgk he.symm
        simp [List.filter_cons, hgid, hgk, h3]

theorem mem_keysOf_group_lines (p : Pre) (k : Nat) :
    k ∈ keysOf (_group_lines_by_id p) ↔ ∃ d ∈ p.lineDivs, d.gid = some k := by
  suffices h : ∀ (divs : List LineDiv) (acc : List (Nat × List String)),
      (k ∈ keysOf (divs.foldl (fun gs d => match d.gid with
        | none => gs
        | some g => addLine gs g d.text) acc) ↔
       k ∈ keysOf acc ∨ ∃ d ∈ divs, d.gid = some k) by
    have h2 := h p.lineDivs []
    simpa [_group_lines_by_id, keysOf] using h2
  intro divs
  induction divs with
  | nil => simp
  | cons d ds ih =>
    intro acc
    rcases hgid : d.gid with _ | g
    · simp only [List.foldl_cons, hgid]
      rw [ih acc]
      constructor
      · rintro (h | ⟨e, he, hg⟩)
        · left; exact h
        · right; exact ⟨e, List.mem_cons_of_mem d he, hg⟩
      · rintro (h | ⟨e, he, hg⟩)
        · left; exact h
        · rcases List.mem_cons.mp he with he | he
          · subst he; rw [hgid] at hg; exact absurd hg (by simp)
          · right; exact ⟨e, he, hg⟩
    · simp only [List.foldl_cons, hgid]
      rw [ih (addLine acc g d.text)]
      have hext := mem_keysOf_extendGroup acc g [d.text] k
      constructor
      · rintro (h | ⟨e, he, hg⟩)
        · rcases hext.mp h with h2 | h2
          · left; exact h2
          · right; exact ⟨d, List.mem_cons_self d ds, by rw [hgid, h2]⟩
        · right; exact ⟨e, List.mem_cons_of_mem d he, hg⟩
      · rintro (h | ⟨e, he, hg⟩)
        · left; exact hext.mpr (Or.inl h)
        · rcases List.mem_cons.mp he with he | he
          · subst he
            rw [hgid] at hg
            left
            exact hext.mpr (Or.inr (Option.some_inj.mp hg).symm)
          · right; exact ⟨e, he, hg⟩

theorem keysOf_group_lines_nodup (p : Pre) :
    (keysOf (_group_lines_by_id p)).Nodup := by
  suffices h : ∀ (divs : List LineDiv) (acc : List (Nat × List String)),
      (keysOf acc).Nodup →
      (keysOf (divs.foldl (fun gs d => match d.gid with
        | none => gs
        | some g => addLine gs g d.text) acc)).Nodup by
    exact h p.lineDivs [] (by simp [keysOf])
  intro divs
  induction divs with
  | nil => intro acc h; exact h
  | cons d ds ih =>
    intro acc h
    rcases hgid : d.gid with _ | g
    · simpa [hgid] using ih acc h
    · simp only [List.foldl_cons, hgid]
      exact ih _ (keysOf_extendGroup_nodup acc g [d.text] h)

theorem lookupG_gatherGroups (pres : List Pre) (k : Nat) :
    lookupG (gatherGroups pres) k = accumLines pres k := by
  suffices h : ∀ (ps : List Pre) (acc : List (Nat × List String)),
      lookupG (ps.foldl (fun acc p => mergeGroups acc (_group_lines_by_id p)) acc) k =
      lookupG acc k ++ accumLines ps k by
    have h2 := h pres []
    simpa [gatherGroups, lookupG] using h2
  intro ps
  induction ps with
  | nil => simp [accumLines, lookupG]
  | cons p ps2 ih =>
    intro acc
    simp only [List.foldl_cons]
    rw [ih, lookupG_mergeGroups _ _ _ (keysOf_group_lines_nodup p), lookupG_group_lines]
    simp [accumLines, List.append_assoc]

theorem mem_keysOf_gatherGroups (pres : List Pre) (k : Nat) :
    k ∈ keysOf (gatherGroups pres) ↔ ∃ p ∈ pres, ∃ d ∈ p.lineDivs, d.gid = some k := by
  suffices h : ∀ (ps : List Pre) (acc : List (Nat × List String)),
      (k ∈ keysOf (ps.foldl (fun acc p => mergeGroups acc (_group_lines_by_id p)) acc) ↔
       k ∈ keysOf acc ∨ ∃ p ∈ ps, ∃ d ∈ p.lineDivs, d.gid = some k) by
    have h2 := h pres []
    simpa [gatherGroups, keysOf] using h2
  intro ps
  induction ps with
  | nil => simp
  | cons p ps2 ih =>
    intro acc
    simp only [List.foldl_cons, ih, mem_keysOf_mergeGroups, mem_keysOf_group_lines,
      List.mem_cons]
    constructor
    · rintro ((h | h) | ⟨q, hq, hd⟩)
      · left; exact h
      · right; exact ⟨p, Or.inl rfl, h⟩
      · right; exact ⟨q, Or.inr hq, hd⟩
    · rintro (h | ⟨q, hq | hq, hd⟩)
      · left; left; exact h
      · subst hq; left; right; exact hd
      · right; exact ⟨q, hq, hd⟩

theorem keysOf_gatherGroups_nodup (pres : List Pre) :
    (keysOf (gatherGroups pres)).Nodup := by
  suffices h : ∀ (ps : List Pre) (acc : List (Nat × List String)),
      (keysOf acc).Nodup →
      (keysOf (ps.foldl (fun acc p => mergeGroups acc (_group_lines_by_id p)) acc)).Nodup by
    exact h pres [] (by simp [keysOf])
  intro ps
  induction ps with
  | nil => intro acc h; exact h
  | cons p ps2 ih =>
    intro acc h
    exact ih _ (keysOf_mergeGroups_nodup acc _ h)

theorem accumLines_ne_nil (pres : List Pre) (k : Nat) :
    accumLines pres k ≠ [] ↔ ∃ p ∈ pres, ∃ d ∈ p.lineDivs, d.gid = some k := by
  rw [accumLines, ne_eq, List.flatMap_eq_nil_iff]
  push_neg
  constructor
  · rintro ⟨p, hp, hne⟩
    have hfil : p.lineDivs.filter (fun d => d.gid = some k) ≠ [] := by
      intro h0
      apply hne
      rw [h0]
      rfl
    obtain ⟨d, hd⟩ := List.exists_mem_of_ne_nil _ hfil
    have hmem := List.mem_filter.mp hd
    exact ⟨p, hp, d, hmem.1, by simpa using hmem.2⟩
  · rintro ⟨p, hp, d, hd, hg⟩
    refine ⟨p, hp, ?_⟩
    have hmem : d ∈ p.lineDivs.filter (fun x => x.gid = some k) :=
      List.mem_filter.mpr ⟨hd, by simpa using hg⟩
    intro hnil
    rw [List.map_eq_nil_iff] at hnil
    rw [hnil] at hmem
    exact (List.not_mem_nil d) hmem

theorem mem_insertAsc (n j : Nat) (l : List Nat) :
    j ∈ insertAsc n l ↔ j = n ∨ j ∈ l := by
  induction l with
  | nil => simp [insertAsc]
  | cons m ms ih =>
    by_cases h : n ≤ m
    · simp [insertAsc, h]
    · simp only [insertAsc, h, if_neg, not_false_iff, List.mem_cons, ih]
      tauto

theorem pairwise_insertAsc (n : Nat) (l : List Nat)
    (h : List.Pairwise (fun a b => a ≤ b) l) :
    List.Pairwise (fun a b => a ≤ b) (insertAsc n l) := by
  induction l with
  | nil => simp [insertAsc]
  | cons m ms ih =>
    rcases List.pairwise_cons.mp h with ⟨hm, hms⟩
    by_cases hle : n ≤ m
    · simp only [insertAsc, hle, if_pos]
      refine List.pairwise_cons.mpr ⟨?_, h⟩
      intro b hb
      rcases List.mem_cons.mp hb with hb | hb
      · omega
      · have := hm b hb
        omega
    · simp only [insertAsc, hle, if_neg, not_false_iff]
      refine List.pairwise_cons.mpr ⟨?_, ih hms⟩
      intro b hb
      rcases (mem_insertAsc n b ms).mp hb with hb | hb
      · omega
      · exact hm b hb

theorem nodup_insertAsc (n : Nat) (l : List Nat) (hn : n ∉ l) (h : l.Nodup) :
    (insertAsc n l).Nodup := by
  induction l with
  | nil => simp [insertAsc]
  | cons m ms ih =>
    rcases List.nodup_cons.mp h with ⟨hm, hms⟩
    simp only [List.mem_cons] at hn
    push_neg at hn
    by_cases hle : n ≤ m
    · simp only [insertAsc, hle, if_pos]
      refine List.nodup_cons.mpr ⟨?_, h⟩
      simp only [List.mem_cons]
      push_neg
      exact hn
    · simp only [insertAsc, hle, if_neg, not_false_iff]
      refine List.nodup_cons.mpr ⟨?_, ih hn.2 hms⟩
      intro hmem
      rcases (mem_insertAsc n m ms).mp hmem with h2 | h2
      · exact hn.1 h2.symm
      · exact hm h2

theorem mem_sortAsc (l : List Nat) (j : Nat) : j ∈ sortAsc l ↔ j ∈ l := by
  induction l with
  | nil => simp [sortAsc]
  | cons m ms ih =>
    simp only [sortAsc, List.foldr_cons] at *
    rw [mem_insertAsc, ih, List.mem_cons]

theorem pairwise_sortAsc (l : List Nat) :
    List.Pairwise (fun a b => a ≤ b) (sortAsc l) := by
  induction l with
  | nil => simp [sortAsc]
  | cons m ms ih =>
    simp only [sortAsc, List.foldr_cons] at *
    exact pairwise_insertAsc m _ ih

theorem nodup_sortAsc (l : List Nat) (h : l.Nodup) : (sortAsc l).Nodup := by
  induction l with
  | nil => simp [sortAsc]
  | cons m ms ih =>
    rcases List.nodup_cons.mp h with ⟨hm, hms⟩
    have h2 : m ∉ sortAsc ms := fun hmem => hm ((mem_sortAsc ms m).mp hmem)
    exact nodup_insertAsc m (sortAsc ms) h2 (ih hms)

theorem pyLower_eq_empty_iff (s : String) : pyLower s = "" ↔ s = "" := by
  constructor
  · intro h
    have hd : s.data.map lowerA = [] := congrArg String.data h
    have hnil : s.data = [] := List.map_eq_nil_iff.mp hd
    apply String.ext
    rw [hnil]
  · intro h
    rw [h]
    rfl

theorem strStarts_append (a b : String) : strStarts (a ++ b) a = true := by
  have hd : (a ++ b).data = a.data ++ b.data := String.data_append a b
  rw [strStarts, hd]
  induction a.data with
  | nil => rfl
  | cons c cs ih => simp [isPref, ih]

theorem filterMap_ite_eq_filter_map {α β : Type} (l : List α) (p : α → Prop)
    [DecidablePred p] (f : α → β) :
    l.filterMap (fun c => if p c then some (f c) else none) =
      (l.filter (fun c => p c)).map f := by
  induction l with
  | nil => rfl
  | cons c cs ih =>
    by_cases h : p c <;> simp [List.filterMap_cons, List.filter_cons, h, ih]

theorem mem_keysOf_remove0 (gs : List (Nat × List String)) (k : Nat) :
    k ∈ keysOf (remove0 gs) ↔ k ∈ keysOf gs ∧ k ≠ 0 := by
  simp only [keysOf, remove0, List.mem_map, List.mem_filter]
  constructor
  · rintro ⟨p, ⟨hp, h0⟩, rfl⟩
    exact ⟨⟨p, hp, rfl⟩, by simpa using h0⟩
  · rintro ⟨⟨p, hp, rfl⟩, hk⟩
    exact ⟨p, ⟨hp, by simpa using hk⟩, rfl⟩

theorem lookupG_remove0 (gs : List (Nat × List String)) (k : Nat) (hk : k ≠ 0) :
    lookupG (remove0 gs) k = lookupG gs k := by
  induction gs with
  | nil => rfl
  | cons p ps ih =>
    by_cases hp : p.1 = 0
    · have h1 : remove0 (p :: ps) = remove0 ps := by
        simp [remove0, List.filter_cons, hp]
      have hne : ¬ p.1 = k := fun he => hk (he.symm.trans hp)
      rw [h1, ih]
      simp [lookupG, hne]
    · have h1 : remove0 (p :: ps) = p :: remove0 ps := by
        simp [remove0, List.filter_cons, hp]
      rw [h1]
      by_cases hpk : p.1 = k
      · simp [lookupG, hpk]
      · simp [lookupG, hpk, ih]

theorem keysOf_remove0_nodup (gs : List (Nat × List String))
    (h : (keysOf gs).Nodup) : (keysOf (remove0 gs)).Nodup := by
  have hsub : (keysOf (remove0 gs)).Sublist (keysOf gs) :=
    (List.filter_sublist gs).map Prod.fst
  exact h.sublist hsub

theorem isPref_self_append (a b : List Char) : isPref a (a ++ b) = true := by
  induction a with
  | nil => rfl
  | cons c cs ih => simp [isPref, ih]

theorem takeWhile_all_append (p : Char → Bool) (ds rest : List Char)
    (h : ds.all p = true) :
    (ds ++ rest).takeWhile p = ds ++ rest.takeWhile p := by
  induction ds with
  | nil => rfl
  | cons c cs ih =>
    have h2 : p c = true ∧ cs.all p = true := by simpa using h
    simp only [List.cons_append, List.takeWhile_cons, h2.1, if_pos]
    rw [ih h2.2]

theorem extract_grouped_ne_nil (o : Option SampleTest)
    (h : (_extract_samples o).2 = true) : (_extract_samples o).1 ≠ [] := by
  match o with
  | none => simp [_extract_samples] at h
  | some st =>
    by_cases hc : hasGroupedMarkers st && !(groupedKeys st).isEmpty
    · simp only [_extract_samples, hc, if_pos]
      intro hnil
      rw [List.map_eq_nil_iff] at hnil
      have h2 : (!(groupedKeys st).isEmpty) = true := by
        have h3 := hc
        simp only [Bool.and_eq_true] at h3
        exact h3.2
      rw [hnil] at h2
      simp at h2
    · simp [_extract_samples, hc] at h

theorem blockRecord_letter (b : Block) : (blockRecord b).letter = letterOf b := by
  by_cases h : (_extract_samples b.sampleTest).2 && !(_extract_samples b.sampleTest).1.isEmpty <;>
    simp [blockRecord, h]

theorem run_one_problem_id (code : String) (pf : Except PyExn CCProblemDetail)
    (hf : Except PyExn String) : (run_one code pf hf).problem_id = code := by
  rcases h : ccAttempt pf hf with _ | ⟨tests, tms, mem⟩ <;>
    simp [run_one, h, ccFallbackRecord]

/-! ## Claim verdicts -/

/-- C1: the claim says no adapter operation ever lets an exception escape.
The code contradicts it at two operations; evaluating the embedding at the
failing inputs: a catalog fetch failing with a timeout propagates out of
`CodeChefScraper.scrape_contest_list` (only `httpx.HTTPStatusError` is
caught there, third conjunct), and any fetch failure propagates out of
`CodeforcesScraper.stream_tests_for_category_async`, which has no handler
at all. -/
theorem c1_exception_escapes_adapter :
    cc_scrape_contest_list (.error (.timeout "Request timed out"))
        (fun _ => .ok { child_contests := [] }) =
      .error (.timeout "Request timed out")
    ∧ cf_stream_tests (.error (.timeout "Request timed out")) =
      .error (.timeout "Request timed out")
    ∧ cc_scrape_contest_list (.error (.httpStatus "server error 503"))
        (fun _ => .ok { child_contests := [] }) =
      .ok (contests_error "Failed to fetch contests: server error 503") :=
  ⟨rfl, rfl, rfl⟩

/-- C2: the claim says `fetchMetadata` never returns a mixed state such as
`success=true` with empty problems.  Evaluating the embedding of
`CodeChefScraper.scrape_contest_metadata` on a contest that declares one
problem, none tagged `main`: the result is exactly that mixed state
(`success=true`, `problems=[]`, non-empty url). -/
theorem c2_metadata_mixed_state :
    cc_scrape_contest_metadata "START100" (.ok c2Data) =
      .ok { success := true, error := "", contest_id := "START100",
            problems := [], url := "https://www.codechef.com/START100" } := rfl

/-- C4 (amended): on a two-block fixture page — block `A` with the
ungrouped pair `"1 2"` → `"3"`, block `B` with one grouped sample whose
input and output each span two group-1 line markers — extraction yields
exactly two cases in total (and the emitted records carry two tests in
total); the grouped case's input/expected are the newline-joins of its
group's lines; and `multi_test` is per record: `true` exactly for the
block containing the grouped sample, not for every record of a page that
contains one somewhere. -/
theorem c4_extraction_roundtrip (u1 u2 v1 v2 : String) :
    (_extract_samples c4UngroupedBlock.sampleTest).1.length +
      (_extract_samples (c4GroupedBlock u1 u2 v1 v2).sampleTest).1.length = 2
    ∧ _extract_samples c4UngroupedBlock.sampleTest = ([TestCase.mk "1 2" "3"], false)
    ∧ (_extract_samples (c4GroupedBlock u1 u2 v1 v2).sampleTest).1 =
        [TestCase.mk (pyStrip (joinNL [u1, u2])) (pyStrip (joinNL [v1, v2]))]
    ∧ (_extract_samples (c4GroupedBlock u1 u2 v1 v2).sampleTest).2 = true
    ∧ ((_parse_all_blocks (c4Page u1 u2 v1 v2)).map (fun r => r.tests.length)).sum = 2
    ∧ (_parse_all_blocks (c4Page u1 u2 v1 v2)).map (fun r => r.multi_test) = [false, true]
    ∧ pageHasGrouped (c4Page u1 u2 v1 v2) = true :=
  ⟨rfl, rfl, rfl, rfl, rfl, rfl, rfl⟩

/-- C4, counterexample to the claim as stated: on the concrete instance of
the fixture page, a grouped sample exists on the page but the ungrouped
block's emitted record still has `multi_test = false` — refuting
"`multi_test` is true iff at least one grouped sample existed anywhere on
the page" for the emitted records. -/
theorem c4_multitest_pagewide_cex :
    pageHasGrouped (c4Page "4 5" "6 7" "11" "13") = true
    ∧ (_parse_all_blocks (c4Page "4 5" "6 7" "11" "13")).map (fun r => r.multi_test) =
        [false, true] := by
  exact ⟨rfl, rfl⟩

/-- C5, counterexample to the claim as stated: a block with grouped-layout
markers whose input-side ids are `{1}` and output-side ids are `{0}` (so
the intersection after discarding id 0 is empty).  The claim says the
TestCase list is built from that (empty) intersection, i.e. is empty; the
code instead falls back to positional pairing of the whole-`pre` texts and
produces one ungrouped case. -/
theorem c5_empty_intersection_cex :
    hasGroupedMarkers c5CexSampleTest = true
    ∧ groupedKeys c5CexSampleTest = []
    ∧ _extract_samples (some c5CexSampleTest) =
        ([TestCase.mk "inraw" "outraw"], false) := by
  exact ⟨rfl, rfl, rfl⟩

/-- C7 (amended): generation discovery takes the maximum over all codes
that start with `START` followed by at least one digit, each contributing
the value of its maximal leading digit run (a non-numeric tail after the
digits does **not** disqualify a code); codes with no digit right after
the prefix are ignored.  On the claim's example the maximum is 12 and
divisions are attempted for generations 1..12; a catalog with maximum 0
yields the listing-failure envelope; otherwise the returned contests are
exactly the flattened division fetches of generations 1..max. -/
theorem c7_generation_discovery :
    (∀ ds rest : List Char, ds ≠ [] → ds.all Char.isDigit = true →
      rest.takeWhile Char.isDigit = [] →
      startNum (String.mk (['S', 'T', 'A', 'R', 'T'] ++ ds ++ rest)) =
        some (digitsVal ds))
    ∧ (∀ rest : List Char, rest.takeWhile Char.isDigit = [] →
      startNum (String.mk (['S', 'T', 'A', 'R', 'T'] ++ rest)) = none)
    ∧ (maxStartNum (c7Catalog.future_contests ++ c7Catalog.past_contests) = 12
       ∧ attemptedGens c7Catalog = List.range' 1 12)
    ∧ (∀ (cat : CCCatalog) (f : Nat → Except PyExn CCParentData),
        maxStartNum (cat.future_contests ++ cat.past_contests) = 0 →
        cc_scrape_contest_list (.ok cat) f =
          .ok (contests_error "No Starters contests found"))
    ∧ (∀ (cat : CCCatalog) (f : Nat → Except PyExn CCParentData),
        maxStartNum (cat.future_contests ++ cat.past_contests) ≠ 0 →
        cc_scrape_contest_list (.ok cat) f =
          .ok { success := true, error := ""
                contests := (attemptedGens cat).flatMap
                  (fun i => fetch_divisions i (f i)) }) := by
  refine ⟨?_, ?_, ⟨by decide, by decide⟩, ?_, ?_⟩
  · intro ds rest hne hdig hrest
    have hdata : (String.mk (['S', 'T', 'A', 'R', 'T'] ++ ds ++ rest)).data =
        ['S', 'T', 'A', 'R', 'T'] ++ (ds ++ rest) := rfl
    rw [startNum, hdata, if_pos (isPref_self_append _ _)]
    have hdrop : (['S', 'T', 'A', 'R', 'T'] ++ (ds ++ rest)).drop 5 = ds ++ rest :=
      List.drop_left ['S', 'T', 'A', 'R', 'T'] (ds ++ rest)
    rw [hdrop, takeWhile_all_append _ _ _ hdig, hrest, List.append_nil]
    simp [List.isEmpty_iff, hne]
  · intro rest hrest
    have hdata : (String.mk (['S', 'T', 'A', 'R', 'T'] ++ rest)).data =
        ['S', 'T', 'A', 'R', 'T'] ++ rest := rfl
    rw [startNum, hdata, if_pos (isPref_self_append _ _)]
    have hdrop : (['S', 'T', 'A', 'R', 'T'] ++ rest).drop 5 = rest :=
      List.drop_left ['S', 'T', 'A', 'R', 'T'] rest
    rw [hdrop, hrest]
    rfl
  · intro cat f h0
    simp only [cc_scrape_contest_list, h0, if_pos]
  · intro cat f h0
    simp only [cc_scrape_contest_list, attemptedGens, h0, if_neg, not_false_iff]

/-- C7, counterexample to the claim as stated: the claim says codes whose
suffix is non-numeric are ignored, so `{START5, START99X}` should select
5.  `re.match(r"START(\d+)", ...)` only anchors at the start, so
`START99X` matches with group `99`: the code selects 99 and attempts
generations 1..99. -/
theorem c7_nonnumeric_suffix_cex :
    startNum "START99X" = some 99
    ∧ maxStartNum (c7CexCatalog.future_contests ++ c7CexCatalog.past_contests) = 99
    ∧ attemptedGens c7CexCatalog = List.range' 1 99 := by
  refine ⟨by decide, by decide, by decide⟩

/-- C7, witness. -/
theorem c7_generation_discovery_witness :
    startNum "START12A" = some 12
    ∧ cc_scrape_contest_list (.ok { future_contests := [], past_contests := [] })
        (fun _ => .ok { child_contests := [] }) =
      .ok (contests_error "No Starters contests found") := by
  constructor
  · have h := c7_generation_discovery.1 ['1', '2'] ['A'] (by decide) (by decide) (by decide)
    have h2 : String.mk ['S', 'T', 'A', 'R', 'T', '1', '2', 'A'] = "START12A" := by decide
    have h3 : digitsVal ['1', '2'] = 12 := by decide
    rw [show (['S', 'T', 'A', 'R', 'T'] ++ ['1', '2'] ++ ['A'] : List Char) =
      ['S', 'T', 'A', 'R', 'T', '1', '2', 'A'] from rfl] at h
    rw [h2, h3] at h
    exact h
  · exact c7_generation_discovery.2.2.2.1
      { future_contests := [], past_contests := [] }
      (fun _ => .ok { child_contests := [] }) (by decide)

/-- C8: CodeChef memory-limit extraction returns the matched number as
megabytes when the unit is MB, the number times 1024 when the unit is GB
(pattern matched case-insensitively and across line breaks), and the
default 256.0 when the phrase is absent; `"Memory Limit: 1.5 GB"` yields
1536.0. -/
theorem c8_memory_limit_regex :
    (∀ s : String, reSearchMem s.data = none → _extract_memory_limit s = .ok 256)
    ∧ (∀ (s n : String) (v : Rat), reSearchMem s.data = some (n, "MB") →
        parseDec n.data = some v → _extract_memory_limit s = .ok v)
    ∧ (∀ (s n : String) (v : Rat), reSearchMem s.data = some (n, "GB") →
        parseDec n.data = some v → _extract_memory_limit s = .ok (v * 1024))
    ∧ _extract_memory_limit "Memory Limit: 1.5 GB" = .ok 1536 := by
  refine ⟨?_, ?_, ?_, by with_unfolding_all rfl⟩
  · intro s h
    simp [_extract_memory_limit, h]
  · intro s n v h1 h2
    simp only [_extract_memory_limit, h1, h2]
    rw [if_neg (by decide : ¬ ("MB" : String) = "GB")]
  · intro s n v h1 h2
    simp [_extract_memory_limit, h1, h2]

/-- C8, witness. -/
theorem c8_memory_limit_regex_witness :
    _extract_memory_limit "no such phrase" = .ok 256
    ∧ _extract_memory_limit "memory limit 512 mb" = .ok 512
    ∧ _extract_memory_limit "Memory Limit: 1.5 GB" = .ok 1536 :=
  ⟨c8_memory_limit_regex.1 "no such phrase" (by decide),
   c8_memory_limit_regex.2.1 "memory limit 512 mb" "512" 512 (by decide)
     (by with_unfolding_all rfl),
   c8_memory_limit_regex.2.2.2⟩

/-- C9, counterexample to the claim as stated: a page whose two blocks
carry the same `problemindex` letter `A` streams two records with the same
`problem_id` `"a"` — ids are not unique within the stream. -/
theorem c9_duplicate_ids_cex :
    cfStreamIds (cf_stream_tests (.ok c9Page)) = ["a", "a"]
    ∧ ¬ (cfStreamIds (cf_stream_tests (.ok c9Page))).Nodup := by
  exact ⟨by decide, by decide⟩

/-- C3: during CodeChef test streaming, every `main` problem yields exactly
one record, computed from that problem's own fetch outcomes only (the
stream is the full map over the filtered problem set — nothing is dropped
and it never terminates early); a problem whose problem-detail fetch (or
page fetch) raises yields exactly the fallback record `tests=[]`,
`timeout_ms=1000`, `memory_mb=256.0`, `interactive=false`,
`multi_test=false`, combined `""`/`""`; and changing one problem's fetch
outcomes leaves every sibling's record unchanged. -/
theorem c3_codechef_per_problem_fallback (cid : String) (data : CCContestData)
    (probFetch : String → Except PyExn CCProblemDetail)
    (htmlFetch : String → Except PyExn String)
    (p : String × CCProblemInfo) (hp : p ∈ mainFilter data.problems) :
    cc_stream_tests cid (.ok data) probFetch htmlFetch =
      (mainFilter data.problems).map
        (fun q => CCOut.record (run_one q.1 (probFetch q.1) (htmlFetch q.1)))
    ∧ (cc_stream_tests cid (.ok data) probFetch htmlFetch).length =
        (mainFilter data.problems).length
    ∧ (∀ e, probFetch p.1 = .error e →
        run_one p.1 (probFetch p.1) (htmlFetch p.1) = ccFallbackRecord p.1)
    ∧ (∀ pd e, probFetch p.1 = .ok pd → htmlFetch p.1 = .error e →
        run_one p.1 (probFetch p.1) (htmlFetch p.1) = ccFallbackRecord p.1)
    ∧ CCOut.record (run_one p.1 (probFetch p.1) (htmlFetch p.1)) ∈
        cc_stream_tests cid (.ok data) probFetch htmlFetch
    ∧ (∀ (pf2 : String → Except PyExn CCProblemDetail)
        (hf2 : String → Except PyExn String),
        (∀ q, q ≠ p.1 → pf2 q = probFetch q ∧ hf2 q = htmlFetch q) →
        ∀ q ∈ mainFilter data.problems, q.1 ≠ p.1 →
          run_one q.1 (pf2 q.1) (hf2 q.1) =
            run_one q.1 (probFetch q.1) (htmlFetch q.1)) := by
  have hmne : mainFilter data.problems ≠ [] := List.ne_nil_of_mem hp
  have hpmem : p ∈ data.problems := List.mem_of_mem_filter hp
  have hpne : data.problems ≠ [] := List.ne_nil_of_mem hpmem
  have hpe : data.problems.isEmpty = false := by
    rcases hh : data.problems with _ | _
    · exact absurd hh hpne
    · rfl
  have hme : (mainFilter data.problems).isEmpty = false := by
    rcases hh : mainFilter data.problems with _ | _
    · exact absurd hh hmne
    · rfl
  have hstream : cc_stream_tests cid (.ok data) probFetch htmlFetch =
      (mainFilter data.problems).map
        (fun q => CCOut.record (run_one q.1 (probFetch q.1) (htmlFetch q.1))) := by
    simp [cc_stream_tests, hpe, hme]
  refine ⟨hstream, by rw [hstream, List.length_map], ?_, ?_, ?_, ?_⟩
  · intro e he
    simp [run_one, ccAttempt, he, ccFallbackRecord]
  · intro pd e hpd he
    rcases hparse : parseDec ((pd.max_timelimit.getD "1").data) with _ | v <;>
      simp [run_one, ccAttempt, hpd, he, hparse, ccFallbackRecord]
  · rw [hstream]
    exact List.mem_map.mpr ⟨p, hp, rfl⟩
  · intro pf2 hf2 hagree q _ hqp
    rw [(hagree q.1 hqp).1, (hagree q.1 hqp).2]

/-- C3, witness. -/
theorem c3_codechef_per_problem_fallback_witness :
    ("A", ({ category_name := some "main", name := some "Alpha" } : CCProblemInfo)) ∈
      mainFilter c3Data.problems
    ∧ run_one "A" (c3ProbFetch "A") (c3HtmlFetch "A") = ccFallbackRecord "A"
    ∧ (cc_stream_tests "START1" (.ok c3Data) c3ProbFetch c3HtmlFetch).length = 2 := by
  have h := c3_codechef_per_problem_fallback "START1" c3Data c3ProbFetch c3HtmlFetch
    ("A", { category_name := some "main", name := some "Alpha" }) (by decide)
  refine ⟨by decide, h.2.2.1 (.timeout "timed out") rfl, ?_⟩
  rw [h.2.1]
  decide

/-- C5 (amended): for a block with grouped-layout markers *and a non-empty
group-id intersection*, the extraction builds exactly one `TestCase` per
id in the intersection of the input-side and output-side group-id sets
(lines accumulated per id across all fragments of a side, id 0 discarded),
in ascending id order, each side newline-joined and stripped.  (When the
intersection is empty the code instead falls back to ungrouped positional
pairing — see the counterexample.) -/
theorem c5_grouped_accumulation (st : SampleTest)
    (hg : hasGroupedMarkers st = true) (hk : groupedKeys st ≠ []) :
    _extract_samples (some st) =
      ((groupedKeys st).map (fun k =>
        TestCase.mk (pyStrip (joinNL (accumLines st.inputs k)))
          (pyStrip (joinNL (accumLines st.outputs k)))), true)
    ∧ List.Pairwise (fun a b => a ≤ b) (groupedKeys st)
    ∧ (groupedKeys st).Nodup
    ∧ ∀ k, k ∈ groupedKeys st ↔
        (k ≠ 0 ∧ accumLines st.inputs k ≠ [] ∧ accumLines st.outputs k ≠ []) := by
  have hchar : ∀ k, k ∈ groupedKeys st ↔
      (k ≠ 0 ∧ accumLines st.inputs k ≠ [] ∧ accumLines st.outputs k ≠ []) := by
    intro k
    rw [groupedKeys, mem_sortAsc, List.mem_filter]
    constructor
    · rintro ⟨h1, h2⟩
      have h2k : k ∈ keysOf (outputsByGid st) := by
        rcases List.any_eq_true.mp h2 with ⟨j, hj, hjk⟩
        rw [show j = k from by simpa using hjk] at hj
        exact hj
      rw [inputsByGid, mem_keysOf_remove0] at h1
      rw [outputsByGid, mem_keysOf_remove0] at h2k
      exact ⟨h1.2,
        (accumLines_ne_nil _ _).mpr ((mem_keysOf_gatherGroups _ _).mp h1.1),
        (accumLines_ne_nil _ _).mpr ((mem_keysOf_gatherGroups _ _).mp h2k.1)⟩
    · rintro ⟨h0, hin, hout⟩
      have h1 : k ∈ keysOf (inputsByGid st) := by
        rw [inputsByGid, mem_keysOf_remove0]
        exact ⟨(mem_keysOf_gatherGroups _ _).mpr ((accumLines_ne_nil _ _).mp hin), h0⟩
      have h2 : k ∈ keysOf (outputsByGid st) := by
        rw [outputsByGid, mem_keysOf_remove0]
        exact ⟨(mem_keysOf_gatherGroups _ _).mpr ((accumLines_ne_nil _ _).mp hout), h0⟩
      exact ⟨h1, List.any_eq_true.mpr ⟨k, h2, by simp⟩⟩
  have hkE : (groupedKeys st).isEmpty = false := by
    rcases hh : groupedKeys st with _ | _
    · exact absurd hh hk
    · rfl
  have heq : _extract_samples (some st) =
      ((groupedKeys st).map (fun k =>
        TestCase.mk (pyStrip (joinNL (lookupG (inputsByGid st) k)))
          (pyStrip (joinNL (lookupG (outputsByGid st) k)))), true) := by
    simp [_extract_samples, hg, hkE]
  have hmap : (groupedKeys st).map (fun k =>
        TestCase.mk (pyStrip (joinNL (lookupG (inputsByGid st) k)))
          (pyStrip (joinNL (lookupG (outputsByGid st) k)))) =
      (groupedKeys st).map (fun k =>
        TestCase.mk (pyStrip (joinNL (accumLines st.inputs k)))
          (pyStrip (joinNL (accumLines st.outputs k)))) := by
    apply List.map_congr_left
    intro k hkmem
    have h0 : k ≠ 0 := ((hchar k).mp hkmem).1
    simp only [inputsByGid, outputsByGid, lookupG_remove0 _ _ h0, lookupG_gatherGroups]
  refine ⟨by rw [heq, hmap], ?_, ?_, hchar⟩
  · rw [groupedKeys]
    exact pairwise_sortAsc _
  · rw [groupedKeys]
    apply nodup_sortAsc
    apply List.Nodup.filter
    rw [inputsByGid]
    exact keysOf_remove0_nodup _ (keysOf_gatherGroups_nodup _)

/-- C5, witness. -/
theorem c5_grouped_accumulation_witness :
    hasGroupedMarkers c5WitnessSampleTest = true
    ∧ _extract_samples (some c5WitnessSampleTest) =
      ([TestCase.mk "a\nb" "o1", TestCase.mk "c" "o2"], true) := by
  have h := c5_grouped_accumulation c5WitnessSampleTest (by decide) (by decide)
  refine ⟨by decide, ?_⟩
  rw [h.1]
  decide

/-- C6: for every problem block, when extraction produced grouped samples
(necessarily at least one case), the emitted record frames the combined
input with the decimal case count, joins all case inputs/outputs with
newlines, and re-frames each individual test input as `"1\n" + input`, so
every replay input begins with a one-case count line while the combined
input begins with the full group count; when extraction was not grouped,
the combined strings are plain newline joins and the cases are emitted
unmodified. -/
theorem c6_combined_framing (b : Block) :
    (∀ raw : List TestCase, _extract_samples b.sampleTest = (raw, true) →
      raw ≠ []
      ∧ (blockRecord b).combined_input =
          toString raw.length ++ "\n" ++ joinNL (raw.map (fun tc => tc.input))
      ∧ (blockRecord b).combined_expected = joinNL (raw.map (fun tc => tc.expected))
      ∧ (blockRecord b).tests =
          raw.map (fun tc => TestCase.mk ("1\n" ++ tc.input) tc.expected)
      ∧ (blockRecord b).multi_test = true
      ∧ (∀ t ∈ (blockRecord b).tests, strStarts t.input "1\n" = true)
      ∧ strStarts (blockRecord b).combined_input (toString raw.length ++ "\n") = true)
    ∧ (∀ raw : List TestCase, _extract_samples b.sampleTest = (raw, false) →
      (blockRecord b).combined_input = joinNL (raw.map (fun tc => tc.input))
      ∧ (blockRecord b).combined_expected = joinNL (raw.map (fun tc => tc.expected))
      ∧ (blockRecord b).tests = raw
      ∧ (blockRecord b).multi_test = false) := by
  constructor
  · intro raw h
    have hne : raw ≠ [] := by
      have h2 := extract_grouped_ne_nil b.sampleTest (by rw [h])
      rwa [h] at h2
    have hraw : raw.isEmpty = false := by
      rcases raw with _ | ⟨a, as⟩
      · exact absurd rfl hne
      · rfl
    have hrec : blockRecord b =
        { letter := letterOf b
          name := (_extract_title b.titleText).2
          combined_input := toString raw.length ++ "\n" ++
            joinNL (raw.map (fun tc => tc.input))
          combined_expected := joinNL (raw.map (fun tc => tc.expected))
          tests := raw.map (fun tc =>
            { input := "1\n" ++ tc.input, expected := tc.expected })
          timeout_ms := (_extract_limits b.timeLimitText b.memLimitText).1
          memory_mb := (_extract_limits b.timeLimitText b.memLimitText).2
          interactive := _is_interactive b
          multi_test := true } := by
      simp [blockRecord, h, hraw]
    refine ⟨hne, by rw [hrec], by rw [hrec], by rw [hrec], by rw [hrec], ?_, ?_⟩
    · rw [hrec]
      intro t ht
      simp only [List.mem_map] at ht
      obtain ⟨tc, _, rfl⟩ := ht
      exact strStarts_append "1\n" tc.input
    · rw [hrec]
      exact strStarts_append (toString raw.length ++ "\n")
        (joinNL (raw.map (fun tc => tc.input)))
  · intro raw h
    have hrec : blockRecord b =
        { letter := letterOf b
          name := (_extract_title b.titleText).2
          combined_input := joinNL (raw.map (fun tc => tc.input))
          combined_expected := joinNL (raw.map (fun tc => tc.expected))
          tests := raw
          timeout_ms := (_extract_limits b.timeLimitText b.memLimitText).1
          memory_mb := (_extract_limits b.timeLimitText b.memLimitText).2
          interactive := _is_interactive b
          multi_test := false } := by
      simp [blockRecord, h]
    exact ⟨by rw [hrec], by rw [hrec], by rw [hrec], by rw [hrec]⟩

/-- C6, witness. -/
theorem c6_combined_framing_witness :
    _extract_samples c6Block.sampleTest =
      ([TestCase.mk "a\nb" "o1", TestCase.mk "c" "o2"], true)
    ∧ (blockRecord c6Block).combined_input = "2\na\nb\nc"
    ∧ (blockRecord c6Block).multi_test = true := by
  have h := (c6_combined_framing c6Block).1
    [TestCase.mk "a\nb" "o1", TestCase.mk "c" "o2"] (by decide)
  refine ⟨by decide, ?_, h.2.2.2.2.1⟩
  rw [h.2.1]
  decide

/-- C9 (amended): every record streamed by the Codeforces adapter carries a
non-empty `problem_id` (letterless blocks are skipped before emission), and
the CodeChef stream's ids are exactly the `main`-filtered keys of the
contest's problems map — duplicate-free whenever the map's keys are (which
`json.loads` guarantees).  (Uniqueness is *not* enforced on the Codeforces
side: two blocks sharing a letter stream duplicate ids — see the
counterexample.) -/
theorem c9_stream_id_invariants :
    (∀ (page : List Block) (rs : List StreamRecord),
      cf_stream_tests (.ok page) = .ok rs → ∀ r ∈ rs, r.problem_id ≠ "")
    ∧ (∀ (cid : String) (data : CCContestData)
        (probFetch : String → Except PyExn CCProblemDetail)
        (htmlFetch : String → Except PyExn String),
        (data.problems.map Prod.fst).Nodup →
        (ccStreamIds (cc_stream_tests cid (.ok data) probFetch htmlFetch)).Nodup)
    ∧ (∀ (cid : String) (data : CCContestData)
        (probFetch : String → Except PyExn CCProblemDetail)
        (htmlFetch : String → Except PyExn String),
        mainFilter data.problems ≠ [] →
        ccStreamIds (cc_stream_tests cid (.ok data) probFetch htmlFetch) =
          (mainFilter data.problems).map Prod.fst) := by
  have hccids : ∀ (cid : String) (data : CCContestData)
      (probFetch : String → Except PyExn CCProblemDetail)
      (htmlFetch : String → Except PyExn String),
      data.problems.isEmpty = false → (mainFilter data.problems).isEmpty = false →
      ccStreamIds (cc_stream_tests cid (.ok data) probFetch htmlFetch) =
        (mainFilter data.problems).map Prod.fst := by
    intro cid data pf hf h1 h2
    simp only [cc_stream_tests, h1, h2, Bool.false_eq_true, if_false, ccStreamIds,
      List.filterMap_map]
    rw [List.filterMap_eq_map_iff_forall_eq_some.mpr ?_]
    intro q
    simp [run_one_problem_id]
  refine ⟨?_, ?_, ?_⟩
  · intro page rs h r hr
    simp only [cf_stream_tests] at h
    have hrs := (Except.ok.injEq _ _).mp h
    rw [← hrs] at hr
    simp only [List.mem_map] at hr
    obtain ⟨rec0, hrec0, hr0⟩ := hr
    simp only [_parse_all_blocks, List.mem_filterMap] at hrec0
    obtain ⟨b, _, hfb⟩ := hrec0
    by_cases hl : letterOf b = ""
    · rw [if_pos hl] at hfb
      exact absurd hfb (by simp)
    · rw [if_neg hl] at hfb
      have hrec : rec0 = blockRecord b := (Option.some_inj.mp hfb).symm
      have hid : r.problem_id = pyLower rec0.letter := by rw [← hr0]
      rw [hid, hrec, blockRecord_letter]
      intro heq
      exact hl ((pyLower_eq_empty_iff _).mp heq)
  · intro cid data pf hf hnodup
    cases h1 : data.problems.isEmpty with
    | true => simp [cc_stream_tests, h1, ccStreamIds]
    | false =>
      cases h2 : (mainFilter data.problems).isEmpty with
      | true => simp [cc_stream_tests, h1, h2, ccStreamIds]
      | false =>
        rw [hccids cid data pf hf h1 h2]
        have hsub : ((mainFilter data.problems).map Prod.fst).Sublist
            (data.problems.map Prod.fst) := (List.filter_sublist _).map Prod.fst
        exact hnodup.sublist hsub
  · intro cid data pf hf hmne
    have h2 : (mainFilter data.problems).isEmpty = false := by
      rcases hh : mainFilter data.problems with _ | _
      · exact absurd hh hmne
      · rfl
    have h1 : data.problems.isEmpty = false := by
      rcases hh : data.problems with _ | _
      · exact absurd (by simp [mainFilter, hh]) hmne
      · rfl
    exact hccids cid data pf hf h1 h2

/-- C9, witness. -/
theorem c9_stream_id_invariants_witness :
    ccStreamIds (cc_stream_tests "START1" (.ok c3Data) c3ProbFetch c3HtmlFetch) =
      ["A", "B"]
    ∧ (ccStreamIds (cc_stream_tests "START1" (.ok c3Data) c3ProbFetch c3HtmlFetch)).Nodup := by
  have h3 := c9_stream_id_invariants.2.2 "START1" c3Data c3ProbFetch c3HtmlFetch (by decide)
  have h2 := c9_stream_id_invariants.2.1 "START1" c3Data c3ProbFetch c3HtmlFetch (by decide)
  refine ⟨?_, h2⟩
  rw [h3]
  decide

/-- C10: given a served catalog with status OK, the Codeforces contest
listing keeps exactly the entries whose `phase` is `"FINISHED"`, in
catalog order, with the id stringified and the name used for both `name`
and `display_name`; when no entry is finished it returns the
`"No contests found"` failure envelope (success=false, non-empty error,
empty list) rather than an empty successful list. -/
theorem c10_finished_filter (data : CFApiData) (hok : data.status = some "OK") :
    (cfFinished data = [] →
      cf_scrape_contest_list (.ok data) = .ok (contests_error "No contests found"))
    ∧ (cfFinished data ≠ [] →
      cf_scrape_contest_list (.ok data) =
        .ok { success := true, error := ""
              contests := (cfFinished data).map
                (fun c => ContestSummary.mk (toString c.id) c.name c.name) })
    ∧ (contests_error "No contests found").success = false
    ∧ (contests_error "No contests found").error = "No contests found"
    ∧ (contests_error "No contests found").contests = [] := by
  have hstep := filterMap_ite_eq_filter_map data.result
    (fun c => c.phase = some "FINISHED")
    (fun c => ContestSummary.mk (toString c.id) c.name c.name)
  have hmain : cf_scrape_contest_list (.ok data) =
      .ok (if ((cfFinished data).map
            (fun c => ContestSummary.mk (toString c.id) c.name c.name)).isEmpty
          then contests_error "No contests found"
          else { success := true, error := ""
                 contests := (cfFinished data).map
                   (fun c => ContestSummary.mk (toString c.id) c.name c.name) }) := by
    simp only [cf_scrape_contest_list, hok]
    rw [if_neg (fun h => h rfl)]
    rw [hstep]
    rfl
  refine ⟨?_, ?_, rfl, rfl, rfl⟩
  · intro hnil
    rw [hmain, hnil]
    rfl
  · intro hne
    rcases hc : cfFinished data with _ | ⟨c0, cs⟩
    · exact absurd hc hne
    · rw [hmain, hc]
      rfl

/-- C10, witness. -/
theorem c10_finished_filter_witness :
    cfFinished c10Data ≠ []
    ∧ cf_scrape_contest_list (.ok c10Data) =
      .ok { success := true, error := ""
            contests := [ContestSummary.mk "1550" "Edu Round" "Edu Round"] } := by
  have h := (c10_finished_filter c10Data (by decide)).2.1 (by decide)
  refine ⟨by decide, ?_⟩
  rw [h]
  decide

end CpNvim
